import Mathlib

/-!
Shallow embedding of `src/streamlit_app.py`: the cell converter
`safe_numeric_convert`, the sheet processor `process_excel_to_json`, and
the `write_data_row` helper of `create_excel_from_json`.  A worksheet is a
rectangular grid of raw cells; pandas `NaN` is `Cell.empty`; Python floats
are modelled by `ℚ`.  An uncaught pandas `IndexError` (out-of-range
`iloc`) is the only exception the processor can raise and is modelled by
`Except`.
-/

/-- A raw cell of the input grid: pandas `NaN` (or a missing value), a
string, or a number. -/
inductive Cell
  | empty
  | str (s : String)
  | num (q : ℚ)
deriving Repr, DecidableEq

/-- Model of `pd.notna` on a single cell. -/
def notna : Cell → Bool
  | .empty => false
  | _ => true

/-- Model of Python `str.upper()`: upcase every character. -/
def strUpper (s : String) : String := String.mk (s.toList.map Char.toUpper)

/-- Model of Python `str.strip()` on a character list: drop leading and
trailing whitespace. -/
def trimL (l : List Char) : List Char :=
  ((l.dropWhile Char.isWhitespace).reverse.dropWhile Char.isWhitespace).reverse

/-- Model of Python `str.strip()`. -/
def strTrim (s : String) : String := String.mk (trimL s.toList)

/-- Model of Python `str.replace(c, "")`: remove every occurrence of the
single character `c`. -/
def removeAll (s : String) (c : Char) : String :=
  String.mk (s.toList.filter (fun a => a != c))

/-- Whether the character list `pat` is a prefix of `l`. -/
def startsWithL : List Char → List Char → Bool
  | [], _ => true
  | _ :: _, [] => false
  | a :: as, b :: bs => a == b && startsWithL as bs

/-- Whether `pat` occurs as a contiguous substring of the second list. -/
def hasSubL (pat : List Char) : List Char → Bool
  | [] => pat.isEmpty
  | b :: bs => startsWithL pat (b :: bs) || hasSubL pat bs

/-- Model of Python substring containment `pat in s`. -/
def hasSub (s pat : String) : Bool := hasSubL pat.toList s.toList

/-- Numeric value of a digit list, most significant digit first. -/
def natOfDigits (l : List Char) : Nat :=
  l.foldl (fun n c => n * 10 + (c.toNat - 48)) 0

/-- Parse an unsigned decimal literal (`"12"`, `"12.5"`, `".5"`, `"12."`);
`none` when the characters do not form one. -/
def parseUnsigned (l : List Char) : Option ℚ :=
  let intPart := l.takeWhile Char.isDigit
  let rest := l.dropWhile Char.isDigit
  match rest with
  | [] => if intPart.isEmpty then none else some (natOfDigits intPart : ℚ)
  | '.' :: fracPart =>
      if fracPart.all Char.isDigit && (!intPart.isEmpty || !fracPart.isEmpty) then
        some ((natOfDigits intPart : ℚ) +
          (natOfDigits fracPart : ℚ) / ((10 : ℚ) ^ fracPart.length))
      else none
  | _ => none

/-- Model of Python `float(string)` restricted to plain decimal notation
(optional sign, digits, optional fraction part, surrounding whitespace).
Exponent, `inf` and `nan` spellings do not occur in these worksheets;
unparseable strings give `none` (Python raises `ValueError`, which
`safe_numeric_convert` catches). -/
def parseDecimal (s : String) : Option ℚ :=
  match (strTrim s).toList with
  | '-' :: rest => (parseUnsigned rest).map (fun q => -q)
  | '+' :: rest => parseUnsigned rest
  | l => parseUnsigned l

/-- Lean model of `safe_numeric_convert` (streamlit_app.py lines 14-23):
`NaN` gives `none`; a string has every comma and percent sign removed and
is parsed as a float, `none` on failure; a number passes through. -/
def safe_numeric_convert : Cell → Option ℚ
  | .empty => none
  | .str s => parseDecimal (removeAll (removeAll s ',') '%')
  | .num q => some q

/-- Python `str(value)` for a cell: `NaN` prints as `"nan"`.  A numeric
cell uses `toString` on `ℚ`, which formats differently from a Python
float, but downstream logic only tests these strings for emptiness and
substring containment, on which the two agree for worksheet numbers. -/
def cellStrRaw : Cell → String
  | .empty => "nan"
  | .str s => s
  | .num q => toString q

/-- Model of `str(x).strip() if pd.notna(x) else ""`, the extraction used
for the name/term and LGD columns (lines 84-85). -/
def cellText (c : Cell) : String := if notna c then strTrim (cellStrRaw c) else ""

/-- Python truthiness of an optional float: `None` and `0.0` are falsy.
This is the element test used by `any([...])` over converted metric cells
(line 129). -/
def truthy : Option ℚ → Bool
  | none => false
  | some q => decide (q ≠ 0)

/-- The `metrics` dict built for a detail row (lines 134-142). -/
structure Metrics where
  percentRRUsed : Option ℚ
  percentAGGUsed : Option ℚ
  used : Option ℚ
  available : Option ℚ
  totalExposure : Option ℚ
  percentTERR : Option ℚ
  percentTEAGG : Option ℚ
deriving Repr, DecidableEq

/-- An element of a subcategory block's `"entries"` list: the dict
`{"term": ..., "lgd": ..., "metrics": ...}` (lines 145-149). -/
structure SubEntry where
  term : String
  lgd : String
  metrics : Metrics
deriving Repr, DecidableEq

/-- A top-level element of `json_data["entries"]`, a Python dict with
optional keys.  `name` is always present.  A parent row dict carries only
`name`; a subcategory block adds `subCategory` and an `"entries"` list
(here `subEntries`); merging a detail dict via `dict.update` fills `term`,
`lgd` and `metrics`. -/
structure Entry where
  name : String
  subCategory : Option String
  term : Option String
  lgd : Option String
  metrics : Option Metrics
  subEntries : Option (List SubEntry)
deriving Repr, DecidableEq

/-- The dict `{"name": n}` appended for a new parent row (lines 102-107). -/
def mkGroup (n : String) : Entry := ⟨n, none, none, none, none, none⟩

/-- The dict `{"name": n, "subCategory": sc, "entries": []}` appended for
a subcategory row (lines 117-123). -/
def mkSubBlock (n sc : String) : Entry := ⟨n, some sc, none, none, none, some []⟩

/-- The dict `{"name": "", "term": t, "lgd": l, "metrics": m}` appended
when a detail row arrives with no parent open (lines 168-171). -/
def mkFlat (t l : String) (m : Metrics) : Entry :=
  ⟨"", none, some t, some l, some m, none⟩

/-- Loop state of `process_excel_to_json`: the accumulated `entries` list
plus the two cursors.  In Python, `current_parent_entry` and
`current_subcategory_entry` alias dicts stored inside
`json_data["entries"]` and are mutated in place, so the cursors are
modelled as indices into `entries`. -/
structure BuildState where
  entries : List Entry
  curParent : Option Nat
  curSub : Option Nat
deriving Repr, DecidableEq

/-- In-place mutation of the list element at index `i` (a Python dict
updated through an aliased reference inside the list). -/
def updAt : List α → Nat → (α → α) → List α
  | [], _, _ => []
  | a :: as, 0, f => f a :: as
  | a :: as, n + 1, f => a :: updAt as n f

/-- Value of `current_parent_entry["name"] if current_parent_entry else ""`
(line 118). -/
def parentName (st : BuildState) : String :=
  match st.curParent with
  | some i => ((st.entries.get? i).map Entry.name).getD ""
  | none => ""

/-- Branch (D) of the row loop (lines 144-171): append the detail dict to
the open subcategory block's `"entries"`, else merge it into the current
parent dict via `dict.update` (overwriting any previous `term`/`lgd`/
`metrics`), else append it at top level with an empty name. -/
def applyDetail (st : BuildState) (t l : String) (m : Metrics) : BuildState :=
  match st.curSub with
  | some j =>
      ⟨updAt st.entries j
        (fun e => ⟨e.name, e.subCategory, e.term, e.lgd, e.metrics,
          some ((e.subEntries.getD []) ++ [⟨t, l, m⟩])⟩),
        st.curParent, st.curSub⟩
  | none =>
      match st.curParent with
      | some i =>
          ⟨updAt st.entries i
            (fun e => ⟨e.name, e.subCategory, some t, some l, some m, e.subEntries⟩),
            st.curParent, st.curSub⟩
      | none => ⟨st.entries ++ [mkFlat t l m], st.curParent, st.curSub⟩

/-- The only uncaught exception in the processor: an out-of-range
positional access `row.iloc[k]` or `df_raw.iloc[0, 0]` (pandas raises
`IndexError`, which nothing catches). -/
inductive ProcError
  | indexError
deriving Repr, DecidableEq

/-- One iteration of the row loop of `process_excel_to_json`
(lines 66-171): skip a fully-NaN row; a non-empty first column with an
empty LGD column starts a new parent; a first column containing
"REVOLVER" (after upcasing) starts a subcategory block; otherwise convert
columns 3-5, skip the row when none is a nonzero number, else build the
metrics dict from columns 3-9 and attach the detail dict. -/
def processRow (st : BuildState) (row : List Cell) : Except ProcError BuildState :=
  if row.all (fun c => !notna c) then .ok st
  else
    match row.get? 0, row.get? 1 with
    | some c0, some c1 =>
        let nameTerm := cellText c0
        let lgdText := cellText c1
        if nameTerm ≠ "" ∧ lgdText = "" then
          .ok ⟨st.entries ++ [mkGroup nameTerm], some st.entries.length, none⟩
        else if hasSub (strUpper nameTerm) "REVOLVER" then
          .ok ⟨st.entries ++ [mkSubBlock (parentName st) nameTerm],
            st.curParent, some st.entries.length⟩
        else
          match row.get? 2, row.get? 3, row.get? 4 with
          | some v2, some v3, some v4 =>
              if !(truthy (safe_numeric_convert v2) ||
                   truthy (safe_numeric_convert v3) ||
                   truthy (safe_numeric_convert v4)) then .ok st
              else
                match row.get? 5, row.get? 6, row.get? 7, row.get? 8 with
                | some v5, some v6, some v7, some v8 =>
                    .ok (applyDetail st nameTerm lgdText
                      ⟨safe_numeric_convert v2, safe_numeric_convert v3,
                       safe_numeric_convert v4, safe_numeric_convert v5,
                       safe_numeric_convert v6, safe_numeric_convert v7,
                       safe_numeric_convert v8⟩)
                | _, _, _, _ => .error .indexError
          | _, _, _ => .error .indexError
    | _, _ => .error .indexError

/-- The row loop, rows processed in order, stopping at the first uncaught
exception. -/
def processRows : BuildState → List (List Cell) → Except ProcError BuildState
  | st, [] => .ok st
  | st, r :: rs =>
      match processRow st r with
      | .ok st' => processRows st' rs
      | .error e => .error e

/-- The returned `json_data` object (its `"category"` and `"entries"`
keys). -/
structure JsonData where
  category : String
  entries : List Entry
deriving Repr, DecidableEq

/-- Lean model of `process_excel_to_json` (lines 25-173): cell (0, 0) is
the category — `str(...)` without a NaN guard, then `strip()` — and the
remaining rows are folded through the row loop starting from empty state. -/
def process_excel_to_json (df : List (List Cell)) : Except ProcError JsonData :=
  match df with
  | [] => .error .indexError
  | r0 :: rest =>
      match r0.get? 0 with
      | none => .error .indexError
      | some c00 =>
          match processRows ⟨[], none, none⟩ rest with
          | .ok fin => .ok ⟨strTrim (cellStrRaw c00), fin.entries⟩
          | .error e => .error e

/-- A value written into an output worksheet cell. -/
inductive XVal
  | s (v : String)
  | n (v : ℚ)
deriving Repr, DecidableEq

/-- An output worksheet cell: its value plus the number-format string, if
one is applied. -/
structure XCell where
  value : XVal
  numberFormat : Option String
deriving Repr, DecidableEq

/-- Lean model of `write_data_row` (lines 220-253) inside
`create_excel_from_json`: the nine cells written for one data row, `none`
where the Python code writes no cell because the metric is `None`.
Percentage metrics are divided by 100 here, at render time. -/
def write_data_row (term : Option String) (lgdText : String) (m : Metrics)
    (indent : Nat) : List (Option XCell) :=
  [some ⟨.s (String.mk (List.replicate indent ' ') ++ term.getD ""), none⟩,
   some ⟨.s lgdText, none⟩,
   m.percentRRUsed.map (fun q => ⟨.n (q / 100), some "0.00%"⟩),
   m.percentAGGUsed.map (fun q => ⟨.n (q / 100), some "0.00%"⟩),
   m.used.map (fun q => ⟨.n q, some "#,##0"⟩),
   m.available.map (fun q => ⟨.n q, some "#,##0"⟩),
   m.totalExposure.map (fun q => ⟨.n q, some "#,##0"⟩),
   m.percentTERR.map (fun q => ⟨.n (q / 100), some "0.00%"⟩),
   m.percentTEAGG.map (fun q => ⟨.n (q / 100), some "0.00%"⟩)]

/-- Modelled from the spec: the category-header marker vocabulary — a
first-column text containing "quality", case-insensitively (§3
`CategoryHeader`, §4.2 rule 3).  The code under `src` contains no such
check; only the spec defines this marker. -/
def categoryMarker (s : String) : Bool := hasSub (strUpper s) "QUALITY"

/-- Modelled from the spec: the subtotal vocabulary — a first-column text
containing "Sub Total" (§4.2 rule 4 and the §8 scenario).  The code under
`src` contains no such check; only the spec defines this marker. -/
def subtotalMarker (s : String) : Bool := hasSub s "Sub Total"

/-! ### Helper lemmas about the row loop -/

lemma notna_of_cellText_ne {c : Cell} (h : cellText c ≠ "") : notna c = true := by
  cases hn : notna c with
  | true => rfl
  | false => exact absurd (by simp [cellText, hn]) h

lemma notna_of_truthy_conv {c : Cell} (h : truthy (safe_numeric_convert c) = true) :
    notna c = true := by
  cases c with
  | empty => simp [safe_numeric_convert, truthy] at h
  | str s => rfl
  | num q => rfl

lemma eq_empty_of_hasSub_empty {pat : String} (h : hasSub "" pat = true) : pat = "" := by
  cases pat with
  | mk data =>
    cases data with
    | nil => rfl
    | cons a l => simp [hasSub, hasSubL, String.toList] at h

lemma cellText_ne_of_hasSub_upper {s pat : String} (hp : pat ≠ "")
    (h : hasSub (strUpper s) pat = true) : s ≠ "" := by
  rintro rfl
  exact hp (eq_empty_of_hasSub_empty (by simpa using h))

lemma processRow_groupStart (st : BuildState) (c0 c1 : Cell) (rest : List Cell)
    (h0 : cellText c0 ≠ "") (h1 : cellText c1 = "") :
    processRow st (c0 :: c1 :: rest) =
      .ok ⟨st.entries ++ [mkGroup (cellText c0)], some st.entries.length, none⟩ := by
  have hn : notna c0 = true := notna_of_cellText_ne h0
  have hna : ((c0 :: c1 :: rest).all fun c => !notna c) = false := by
    simp [List.all_cons, hn]
  simp only [processRow, hna, Bool.false_eq_true, if_false, List.get?]
  rw [if_pos ⟨h0, h1⟩]

lemma processRow_subCat (st : BuildState) (c0 c1 : Cell) (rest : List Cell)
    (hA : ¬(cellText c0 ≠ "" ∧ cellText c1 = ""))
    (hR : hasSub (strUpper (cellText c0)) "REVOLVER" = true) :
    processRow st (c0 :: c1 :: rest) =
      .ok ⟨st.entries ++ [mkSubBlock (parentName st) (cellText c0)],
        st.curParent, some st.entries.length⟩ := by
  have h0 : cellText c0 ≠ "" := cellText_ne_of_hasSub_upper (by decide) hR
  have hn : notna c0 = true := notna_of_cellText_ne h0
  have hna : ((c0 :: c1 :: rest).all fun c => !notna c) = false := by
    simp [List.all_cons, hn]
  simp only [processRow, hna, Bool.false_eq_true, if_false, List.get?]
  rw [if_neg hA, hR]
  simp

lemma processRow_skip (st : BuildState) (c0 c1 c2 c3 c4 : Cell) (rest : List Cell)
    (hna : ((c0 :: c1 :: c2 :: c3 :: c4 :: rest).all fun c => !notna c) = false)
    (hA : ¬(cellText c0 ≠ "" ∧ cellText c1 = ""))
    (hR : hasSub (strUpper (cellText c0)) "REVOLVER" = false)
    (hT : (truthy (safe_numeric_convert c2) || truthy (safe_numeric_convert c3) ||
           truthy (safe_numeric_convert c4)) = false) :
    processRow st (c0 :: c1 :: c2 :: c3 :: c4 :: rest) = .ok st := by
  simp only [processRow, hna, Bool.false_eq_true, if_false, List.get?]
  rw [if_neg hA, hR]
  simp only [Bool.false_eq_true, if_false, hT, Bool.not_false, if_true]

lemma processRow_detail (st : BuildState) (c0 c1 c2 c3 c4 c5 c6 c7 c8 : Cell)
    (rest : List Cell)
    (hna : ((c0 :: c1 :: c2 :: c3 :: c4 :: c5 :: c6 :: c7 :: c8 :: rest).all
      fun c => !notna c) = false)
    (hA : ¬(cellText c0 ≠ "" ∧ cellText c1 = ""))
    (hR : hasSub (strUpper (cellText c0)) "REVOLVER" = false)
    (hT : (truthy (safe_numeric_convert c2) || truthy (safe_numeric_convert c3) ||
           truthy (safe_numeric_convert c4)) = true) :
    processRow st (c0 :: c1 :: c2 :: c3 :: c4 :: c5 :: c6 :: c7 :: c8 :: rest) =
      .ok (applyDetail st (cellText c0) (cellText c1)
        ⟨safe_numeric_convert c2, safe_numeric_convert c3, safe_numeric_convert c4,
         safe_numeric_convert c5, safe_numeric_convert c6, safe_numeric_convert c7,
         safe_numeric_convert c8⟩) := by
  simp only [processRow, hna, Bool.false_eq_true, if_false, List.get?]
  rw [if_neg hA, hR]
  simp only [Bool.false_eq_true, if_false, hT, Bool.not_true, if_true]

lemma row_shape9 : ∀ (row : List Cell), 9 ≤ row.length →
    ∃ c0 c1 c2 c3 c4 c5 c6 c7 c8 rest,
      row = c0 :: c1 :: c2 :: c3 :: c4 :: c5 :: c6 :: c7 :: c8 :: rest
  | c0 :: c1 :: c2 :: c3 :: c4 :: c5 :: c6 :: c7 :: c8 :: rest, _ =>
      ⟨c0, c1, c2, c3, c4, c5, c6, c7, c8, rest, rfl⟩
  | [], h => by simp at h
  | [_], h => by simp at h
  | [_, _], h => by simp at h
  | [_, _, _], h => by simp at h
  | [_, _, _, _], h => by simp at h
  | [_, _, _, _, _], h => by simp at h
  | [_, _, _, _, _, _], h => by simp at h
  | [_, _, _, _, _, _, _], h => by simp at h
  | [_, _, _, _, _, _, _, _], h => by simp at h

lemma processRow_total (st : BuildState) (row : List Cell) (h : 9 ≤ row.length) :
    ∃ st', processRow st row = .ok st' := by
  obtain ⟨c0, c1, c2, c3, c4, c5, c6, c7, c8, rest, rfl⟩ := row_shape9 row h
  by_cases hna : ((c0 :: c1 :: c2 :: c3 :: c4 :: c5 :: c6 :: c7 :: c8 :: rest).all
      fun c => !notna c) = true
  · exact ⟨st, by simp only [processRow, hna, if_true]⟩
  · rw [Bool.not_eq_true] at hna
    by_cases hA : cellText c0 ≠ "" ∧ cellText c1 = ""
    · exact ⟨_, processRow_groupStart st c0 c1 _ hA.1 hA.2⟩
    · by_cases hR : hasSub (strUpper (cellText c0)) "REVOLVER" = true
      · exact ⟨_, processRow_subCat st c0 c1 _ hA hR⟩
      · rw [Bool.not_eq_true] at hR
        by_cases hT : (truthy (safe_numeric_convert c2) ||
            truthy (safe_numeric_convert c3) || truthy (safe_numeric_convert c4)) = true
        · exact ⟨_, processRow_detail st c0 c1 c2 c3 c4 c5 c6 c7 c8 rest hna hA hR hT⟩
        · rw [Bool.not_eq_true] at hT
          exact ⟨st, processRow_skip st c0 c1 c2 c3 c4 _ hna hA hR hT⟩

lemma processRows_total : ∀ (rs : List (List Cell)) (st : BuildState),
    (∀ r ∈ rs, 9 ≤ r.length) → ∃ st', processRows st rs = .ok st'
  | [], st, _ => ⟨st, rfl⟩
  | r :: rs, st, h => by
      obtain ⟨st1, h1⟩ := processRow_total st r (h r (by simp))
      obtain ⟨st2, h2⟩ := processRows_total rs st1 (fun x hx => h x (by simp [hx]))
      exact ⟨st2, by simp only [processRows, h1, h2]⟩

lemma updAt_length : ∀ (l : List α) (i : Nat) (f : α → α), (updAt l i f).length = l.length
  | [], _, _ => rfl
  | _ :: _, 0, _ => rfl
  | _ :: as, n + 1, f => by simp [updAt, updAt_length as n f]

lemma updAt_get?_ne : ∀ (l : List α) (i j : Nat) (f : α → α), i ≠ j →
    (updAt l j f).get? i = l.get? i
  | [], _, _, _, _ => by simp [updAt]
  | a :: as, i, 0, f, h => by
      cases i with
      | zero => exact absurd rfl h
      | succ i => simp [updAt]
  | a :: as, i, j + 1, f, h => by
      cases i with
      | zero => simp [updAt]
      | succ i => simpa [updAt] using updAt_get?_ne as i j f (by omega)

lemma updAt_get?_eq : ∀ (l : List α) (j : Nat) (f : α → α),
    (updAt l j f).get? j = (l.get? j).map f
  | [], _, _ => by simp [updAt]
  | a :: as, 0, f => by simp [updAt]
  | a :: as, j + 1, f => by simpa [updAt] using updAt_get?_eq as j f

lemma processRow_nil (st : BuildState) : processRow st [] = .ok st := rfl

lemma processRow_single (st : BuildState) (c0 : Cell) (st' : BuildState)
    (h : processRow st [c0] = .ok st') : st' = st := by
  by_cases hna : ([c0].all fun c => !notna c) = true
  · rw [show processRow st [c0] = .ok st from by simp only [processRow, hna, if_true]] at h
    cases h
    rfl
  · rw [Bool.not_eq_true] at hna
    rw [show processRow st [c0] = .error .indexError from by
      simp only [processRow, hna, Bool.false_eq_true, if_false, List.get?]] at h
    cases h

lemma processRow_metricBranch (st : BuildState) (c0 c1 : Cell) (rest : List Cell)
    (hna : ((c0 :: c1 :: rest).all fun c => !notna c) = false)
    (hA : ¬(cellText c0 ≠ "" ∧ cellText c1 = ""))
    (hR : hasSub (strUpper (cellText c0)) "REVOLVER" = false) :
    processRow st (c0 :: c1 :: rest) =
      match rest.get? 0, rest.get? 1, rest.get? 2 with
      | some v2, some v3, some v4 =>
          if !(truthy (safe_numeric_convert v2) || truthy (safe_numeric_convert v3) ||
               truthy (safe_numeric_convert v4)) then .ok st
          else
            match rest.get? 3, rest.get? 4, rest.get? 5, rest.get? 6 with
            | some v5, some v6, some v7, some v8 =>
                .ok (applyDetail st (cellText c0) (cellText c1)
                  ⟨safe_numeric_convert v2, safe_numeric_convert v3,
                   safe_numeric_convert v4, safe_numeric_convert v5,
                   safe_numeric_convert v6, safe_numeric_convert v7,
                   safe_numeric_convert v8⟩)
            | _, _, _, _ => .error .indexError
      | _, _, _ => .error .indexError := by
  simp only [processRow, hna, Bool.false_eq_true, if_false, List.get?]
  rw [if_neg hA, hR]
  simp only [Bool.false_eq_true, if_false]

lemma processRow_shape (st : BuildState) (row : List Cell) (st' : BuildState)
    (h : processRow st row = .ok st') :
    st' = st ∨
    (∃ n, st' = ⟨st.entries ++ [mkGroup n], some st.entries.length, none⟩) ∨
    (∃ sc, st' = ⟨st.entries ++ [mkSubBlock (parentName st) sc], st.curParent,
        some st.entries.length⟩) ∨
    (∃ t l m, st' = applyDetail st t l m) := by
  match row with
  | [] =>
      rw [processRow_nil] at h
      cases h
      exact Or.inl rfl
  | [c0] => exact Or.inl (processRow_single st c0 st' h)
  | c0 :: c1 :: rest =>
      by_cases hna : ((c0 :: c1 :: rest).all fun c => !notna c) = true
      · rw [show processRow st (c0 :: c1 :: rest) = .ok st from by
          simp only [processRow, hna, if_true]] at h
        cases h
        exact Or.inl rfl
      · rw [Bool.not_eq_true] at hna
        by_cases hA : cellText c0 ≠ "" ∧ cellText c1 = ""
        · rw [processRow_groupStart st c0 c1 rest hA.1 hA.2] at h
          cases h
          exact Or.inr (Or.inl ⟨_, rfl⟩)
        · by_cases hR : hasSub (strUpper (cellText c0)) "REVOLVER" = true
          · rw [processRow_subCat st c0 c1 rest hA hR] at h
            cases h
            exact Or.inr (Or.inr (Or.inl ⟨_, rfl⟩))
          · rw [Bool.not_eq_true] at hR
            rw [processRow_metricBranch st c0 c1 rest hna hA hR] at h
            rcases hv2 : rest.get? 0 with _ | v2 <;> rw [hv2] at h
            · cases h
            rcases hv3 : rest.get? 1 with _ | v3 <;> rw [hv3] at h
            · cases h
            rcases hv4 : rest.get? 2 with _ | v4 <;> rw [hv4] at h
            · cases h
            simp only at h
            by_cases hT : (truthy (safe_numeric_convert v2) ||
                truthy (safe_numeric_convert v3) || truthy (safe_numeric_convert v4)) = true
            · rw [hT] at h
              simp only [Bool.not_true, Bool.false_eq_true, if_false] at h
              rcases hv5 : rest.get? 3 with _ | v5 <;> rw [hv5] at h
              · cases h
              rcases hv6 : rest.get? 4 with _ | v6 <;> rw [hv6] at h
              · cases h
              rcases hv7 : rest.get? 5 with _ | v7 <;> rw [hv7] at h
              · cases h
              rcases hv8 : rest.get? 6 with _ | v8 <;> rw [hv8] at h
              · cases h
              simp only at h
              cases h
              exact Or.inr (Or.inr (Or.inr ⟨_, _, _, rfl⟩))
            · rw [Bool.not_eq_true] at hT
              rw [hT] at h
              simp only [Bool.not_false, if_true] at h
              cases h
              exact Or.inl rfl

/-- Invariant for C8: the group at index `k` is untouched, the entry at
`k+1` keeps its name, and both cursors stay strictly above `k`. -/
def KeptAt (k : Nat) (gA : Entry) (nB : String) (st : BuildState) : Prop :=
  st.entries.get? k = some gA ∧
  (∃ e, st.entries.get? (k + 1) = some e ∧ e.name = nB) ∧
  (∀ i, st.curParent = some i → k < i) ∧
  (∀ j, st.curSub = some j → k < j)

lemma keptAt_processRow {k : Nat} {gA : Entry} {nB : String} {st : BuildState}
    {row : List Cell} {st' : BuildState}
    (hk : KeptAt k gA nB st) (h : processRow st row = .ok st') :
    KeptAt k gA nB st' := by
  obtain ⟨h1, ⟨e, he, hen⟩, hp, hs⟩ := hk
  have hklt : k < st.entries.length := (List.get?_eq_some.mp h1).1
  have hk1lt : k + 1 < st.entries.length := (List.get?_eq_some.mp he).1
  rcases processRow_shape st row st' h with rfl | ⟨n, rfl⟩ | ⟨sc, rfl⟩ | ⟨t, l, m, rfl⟩
  · exact ⟨h1, ⟨e, he, hen⟩, hp, hs⟩
  · refine ⟨?_, ⟨e, ?_, hen⟩, ?_, ?_⟩
    · rw [List.get?_append hklt]; exact h1
    · rw [List.get?_append hk1lt]; exact he
    · rintro i hi
      cases hi
      omega
    · rintro j hj
      cases hj
  · refine ⟨?_, ⟨e, ?_, hen⟩, hp, ?_⟩
    · rw [List.get?_append hklt]; exact h1
    · rw [List.get?_append hk1lt]; exact he
    · rintro j hj
      cases hj
      omega
  · rcases hsub : st.curSub with _ | j
    · rcases hpar : st.curParent with _ | i
      · refine ⟨?_, ⟨e, ?_, hen⟩, ?_, ?_⟩ <;>
          simp only [applyDetail, hsub, hpar]
        · rw [List.get?_append hklt]; exact h1
        · rw [List.get?_append hk1lt]; exact he
        · exact fun i hi => Option.noConfusion hi
        · exact fun j hj => Option.noConfusion hj
      · have hki : k < i := hp i hpar
        refine ⟨?_, ?_, ?_, ?_⟩ <;> simp only [applyDetail, hsub, hpar]
        · rw [updAt_get?_ne _ _ _ _ (by omega)]; exact h1
        · by_cases hik : k + 1 = i
          · subst hik
            refine ⟨_, by rw [updAt_get?_eq, he]; rfl, ?_⟩
            simpa using hen
          · exact ⟨e, by rw [updAt_get?_ne _ _ _ _ (by omega)]; exact he, hen⟩
        · intro i' hi'
          injection hi' with hh
          omega
        · exact fun j hj => Option.noConfusion hj
    · have hkj : k < j := hs j hsub
      refine ⟨?_, ?_, ?_, ?_⟩ <;> simp only [applyDetail, hsub]
      · rw [updAt_get?_ne _ _ _ _ (by omega)]; exact h1
      · by_cases hjk : k + 1 = j
        · subst hjk
          refine ⟨_, by rw [updAt_get?_eq, he]; rfl, ?_⟩
          simpa using hen
        · exact ⟨e, by rw [updAt_get?_ne _ _ _ _ (by omega)]; exact he, hen⟩
      · exact hp
      · intro j' hj'
        injection hj' with hh
        omega

lemma keptAt_processRows {k : Nat} {gA : Entry} {nB : String} :
    ∀ (rs : List (List Cell)) (st st' : BuildState),
      processRows st rs = .ok st' → KeptAt k gA nB st → KeptAt k gA nB st'
  | [], st, st', h, hk => by
      cases h
      exact hk
  | r :: rs, st, st', h, hk => by
      simp only [processRows] at h
      cases hr : processRow st r with
      | error e => rw [hr] at h; cases h
      | ok st1 =>
          rw [hr] at h
          exact keptAt_processRows rs st1 st' h (keptAt_processRow hk hr)

lemma processRows_append_ok : ∀ (xs ys : List (List Cell)) (st fin : BuildState),
    processRows st (xs ++ ys) = .ok fin →
    ∃ mid, processRows st xs = .ok mid ∧ processRows mid ys = .ok fin
  | [], ys, st, fin, h => ⟨st, rfl, h⟩
  | x :: xs, ys, st, fin, h => by
      simp only [List.cons_append, processRows] at h
      cases hx : processRow st x with
      | error e => rw [hx] at h; cases h
      | ok st1 =>
          rw [hx] at h
          obtain ⟨mid, hm, hy⟩ := processRows_append_ok xs ys st1 fin h
          refine ⟨mid, ?_, hy⟩
          simp only [processRows, hx]
          exact hm

lemma process_excel_cons (r0 : List Cell) (rest : List (List Cell)) :
    process_excel_to_json (r0 :: rest) =
      match r0.get? 0 with
      | none => .error .indexError
      | some c00 =>
          match processRows ⟨[], none, none⟩ rest with
          | .ok fin => .ok ⟨strTrim (cellStrRaw c00), fin.entries⟩
          | .error e => .error e := rfl


/-! ### Claims -/

/-- C1, counterexample: a grid whose two rows both match the category
marker ("quality") is processed without any error — no
`DuplicateCategoryError` exists in the code — and a tree IS produced: the
first row becomes the category label and the second marker row becomes an
ordinary group entry.  This refutes the claim that such a grid raises
`DuplicateCategoryError` and produces no tree. -/
theorem claimC1_counterexample :
    process_excel_to_json
        [[Cell.str "07 - Average Quality", Cell.empty],
         [Cell.str "08 - Low Quality", Cell.empty]] =
      .ok ⟨"07 - Average Quality", [mkGroup "08 - Low Quality"]⟩ ∧
    categoryMarker "07 - Average Quality" = true ∧
    categoryMarker "08 - Low Quality" = true :=
  ⟨rfl, by decide, by decide⟩

/-- C1, amended: processing never raises on a second category-marker row;
the first grid row is unconditionally consumed as the category label, and
any later row whose first-column text matches the category marker and
whose LGD column is empty is handled by the ordinary row rules — it is
appended as a new parent group, so a tree is still produced. -/
theorem claimC1_amended (st : BuildState) (c0 c1 : Cell) (rest : List Cell)
    (h0 : categoryMarker (cellText c0) = true) (h1 : cellText c1 = "") :
    processRow st (c0 :: c1 :: rest) =
      .ok ⟨st.entries ++ [mkGroup (cellText c0)], some st.entries.length, none⟩ := by
  have hne : cellText c0 ≠ "" := fun he => by
    rw [he] at h0
    exact absurd h0 (by decide)
  exact processRow_groupStart st c0 c1 rest hne h1

/-- C1, witness: the amended theorem evaluated on a concrete
category-marker row. -/
theorem claimC1_witness :
    processRow ⟨[], none, none⟩ [Cell.str "08 - Low Quality", Cell.empty] =
      .ok ⟨[mkGroup "08 - Low Quality"], some 0, none⟩ :=
  claimC1_amended ⟨[], none, none⟩ (Cell.str "08 - Low Quality") Cell.empty []
    (by decide) (by decide)

/-- C2, counterexample: a detail row displaying `50` in the first
percentage column (i.e. 50%) is stored in the serialized metrics object
as the raw magnitude `50`, not as `0.5`; the claim that the finalized
metrics fields equal the displayed value divided by 100 is false. -/
theorem claimC2_counterexample :
    process_excel_to_json
        [[Cell.str "Cat", Cell.empty, Cell.empty, Cell.empty, Cell.empty,
          Cell.empty, Cell.empty, Cell.empty, Cell.empty],
         [Cell.str "T", Cell.str "AA", Cell.num 50, Cell.num 1, Cell.num 1,
          Cell.num 2, Cell.num 3, Cell.num 10, Cell.num 5]] =
      .ok ⟨"Cat",
        [mkFlat "T" "AA"
          ⟨some 50, some 1, some 1, some 2, some 3, some 10, some 5⟩]⟩ ∧
    (50 : ℚ) ≠ (50 : ℚ) / 100 :=
  ⟨rfl, by norm_num⟩

/-- C2, amended: the serialized metrics object stores the raw displayed
magnitudes — each metrics field of a processed detail row is exactly
`safe_numeric_convert` of its cell, with no division — and the division
by 100 happens only in `write_data_row` when the tree is rendered back to
a worksheet: there the four percentage columns receive value/100 with
format "0.00%", while the three amount columns pass through unchanged. -/
theorem claimC2_amended (st : BuildState)
    (c0 c1 c2 c3 c4 c5 c6 c7 c8 : Cell) (rest : List Cell)
    (term : Option String) (lg : String) (mt : Metrics) (ind : Nat)
    (h1 : cellText c1 ≠ "")
    (hR : hasSub (strUpper (cellText c0)) "REVOLVER" = false)
    (hT : (truthy (safe_numeric_convert c2) || truthy (safe_numeric_convert c3) ||
           truthy (safe_numeric_convert c4)) = true) :
    processRow st (c0 :: c1 :: c2 :: c3 :: c4 :: c5 :: c6 :: c7 :: c8 :: rest) =
      .ok (applyDetail st (cellText c0) (cellText c1)
        ⟨safe_numeric_convert c2, safe_numeric_convert c3, safe_numeric_convert c4,
         safe_numeric_convert c5, safe_numeric_convert c6, safe_numeric_convert c7,
         safe_numeric_convert c8⟩) ∧
    (write_data_row term lg mt ind).get? 2 =
      some (mt.percentRRUsed.map fun q => ⟨.n (q / 100), some "0.00%"⟩) ∧
    (write_data_row term lg mt ind).get? 3 =
      some (mt.percentAGGUsed.map fun q => ⟨.n (q / 100), some "0.00%"⟩) ∧
    (write_data_row term lg mt ind).get? 4 =
      some (mt.used.map fun q => ⟨.n q, some "#,##0"⟩) ∧
    (write_data_row term lg mt ind).get? 5 =
      some (mt.available.map fun q => ⟨.n q, some "#,##0"⟩) ∧
    (write_data_row term lg mt ind).get? 6 =
      some (mt.totalExposure.map fun q => ⟨.n q, some "#,##0"⟩) ∧
    (write_data_row term lg mt ind).get? 7 =
      some (mt.percentTERR.map fun q => ⟨.n (q / 100), some "0.00%"⟩) ∧
    (write_data_row term lg mt ind).get? 8 =
      some (mt.percentTEAGG.map fun q => ⟨.n (q / 100), some "0.00%"⟩) := by
  have hn1 : notna c1 = true := notna_of_cellText_ne h1
  have hna : ((c0 :: c1 :: c2 :: c3 :: c4 :: c5 :: c6 :: c7 :: c8 :: rest).all
      fun c => !notna c) = false := by simp [List.all_cons, hn1]
  have hA : ¬(cellText c0 ≠ "" ∧ cellText c1 = "") := fun hA' => h1 hA'.2
  exact ⟨processRow_detail st c0 c1 c2 c3 c4 c5 c6 c7 c8 rest hna hA hR hT,
    rfl, rfl, rfl, rfl, rfl, rfl, rfl⟩

/-- C2, witness: the amended theorem evaluated on a concrete detail row
(metric value 5 stored raw; rendered percentage cell is 5/100). -/
theorem claimC2_witness :
    processRow ⟨[], none, none⟩
        [Cell.str "T", Cell.str "AA", Cell.num 5, Cell.empty, Cell.empty,
         Cell.empty, Cell.empty, Cell.empty, Cell.empty] =
      .ok ⟨[mkFlat "T" "AA" ⟨some 5, none, none, none, none, none, none⟩],
        none, none⟩ ∧
    (write_data_row (some "T") "AA" ⟨some 5, none, none, none, none, none, none⟩ 2).get? 2 =
      some (some ⟨.n ((5 : ℚ) / 100), some "0.00%"⟩) ∧
    (write_data_row (some "T") "AA" ⟨some 5, none, none, none, none, none, none⟩ 2).get? 3 =
      some none ∧
    (write_data_row (some "T") "AA" ⟨some 5, none, none, none, none, none, none⟩ 2).get? 4 =
      some none ∧
    (write_data_row (some "T") "AA" ⟨some 5, none, none, none, none, none, none⟩ 2).get? 5 =
      some none ∧
    (write_data_row (some "T") "AA" ⟨some 5, none, none, none, none, none, none⟩ 2).get? 6 =
      some none ∧
    (write_data_row (some "T") "AA" ⟨some 5, none, none, none, none, none, none⟩ 2).get? 7 =
      some none ∧
    (write_data_row (some "T") "AA" ⟨some 5, none, none, none, none, none, none⟩ 2).get? 8 =
      some none :=
  claimC2_amended ⟨[], none, none⟩ (Cell.str "T") (Cell.str "AA") (Cell.num 5)
    Cell.empty Cell.empty Cell.empty Cell.empty Cell.empty Cell.empty []
    (some "T") "AA" ⟨some 5, none, none, none, none, none, none⟩ 2
    (by decide) (by decide) (by decide)

/-- C3, counterexample: a group row followed by two detail rows ("T1" then
"T2") yields a single entry whose detail data is T2's — the first detail
row's data is overwritten by `dict.update`, not kept as its own entry, so
the claim that every detail row appears in the tree in input order is
false. -/
theorem claimC3_counterexample :
    process_excel_to_json
        [[Cell.str "Cat", Cell.empty, Cell.empty, Cell.empty, Cell.empty,
          Cell.empty, Cell.empty, Cell.empty, Cell.empty],
         [Cell.str "Acme", Cell.empty, Cell.empty, Cell.empty, Cell.empty,
          Cell.empty, Cell.empty, Cell.empty, Cell.empty],
         [Cell.str "T1", Cell.str "AA", Cell.num 1, Cell.empty, Cell.empty,
          Cell.empty, Cell.empty, Cell.empty, Cell.empty],
         [Cell.str "T2", Cell.str "BB", Cell.num 2, Cell.empty, Cell.empty,
          Cell.empty, Cell.empty, Cell.empty, Cell.empty]] =
      .ok ⟨"Cat",
        [⟨"Acme", none, some "T2", some "BB",
          some ⟨some 2, none, none, none, none, none, none⟩, none⟩]⟩ :=
  rfl

/-- C3, amended: a detail row processed while a parent group is current
and no subcategory block is open is merged into the parent entry in place
via `dict.update`, overwriting the parent's previous `term`, `lgd` and
`metrics`; the entries list does not grow, so of several successive
detail rows only the last one's data survives. -/
theorem claimC3_amended (es : List Entry) (i : Nat)
    (c0 c1 c2 c3 c4 c5 c6 c7 c8 : Cell) (rest : List Cell)
    (h1 : cellText c1 ≠ "")
    (hR : hasSub (strUpper (cellText c0)) "REVOLVER" = false)
    (hT : (truthy (safe_numeric_convert c2) || truthy (safe_numeric_convert c3) ||
           truthy (safe_numeric_convert c4)) = true) :
    processRow ⟨es, some i, none⟩
        (c0 :: c1 :: c2 :: c3 :: c4 :: c5 :: c6 :: c7 :: c8 :: rest) =
      .ok ⟨updAt es i
          (fun e => ⟨e.name, e.subCategory, some (cellText c0), some (cellText c1),
            some ⟨safe_numeric_convert c2, safe_numeric_convert c3,
              safe_numeric_convert c4, safe_numeric_convert c5,
              safe_numeric_convert c6, safe_numeric_convert c7,
              safe_numeric_convert c8⟩, e.subEntries⟩),
        some i, none⟩ ∧
    (updAt es i
        (fun e => ⟨e.name, e.subCategory, some (cellText c0), some (cellText c1),
          some ⟨safe_numeric_convert c2, safe_numeric_convert c3,
            safe_numeric_convert c4, safe_numeric_convert c5,
            safe_numeric_convert c6, safe_numeric_convert c7,
            safe_numeric_convert c8⟩, e.subEntries⟩)).length = es.length := by
  have hn1 : notna c1 = true := notna_of_cellText_ne h1
  have hna : ((c0 :: c1 :: c2 :: c3 :: c4 :: c5 :: c6 :: c7 :: c8 :: rest).all
      fun c => !notna c) = false := by simp [List.all_cons, hn1]
  have hA : ¬(cellText c0 ≠ "" ∧ cellText c1 = "") := fun hA' => h1 hA'.2
  exact ⟨processRow_detail ⟨es, some i, none⟩ c0 c1 c2 c3 c4 c5 c6 c7 c8 rest hna hA hR hT,
    updAt_length es i _⟩

/-- C3, witness: the amended theorem evaluated with a concrete parent
entry and detail row. -/
theorem claimC3_witness :
    processRow ⟨[mkGroup "Acme"], some 0, none⟩
        [Cell.str "T2", Cell.str "BB", Cell.num 2, Cell.empty, Cell.empty,
         Cell.empty, Cell.empty, Cell.empty, Cell.empty] =
      .ok ⟨[⟨"Acme", none, some "T2", some "BB",
          some ⟨some 2, none, none, none, none, none, none⟩, none⟩],
        some 0, none⟩ ∧
    ([⟨"Acme", none, some "T2", some "BB",
        some ⟨some 2, none, none, none, none, none, none⟩, none⟩] : List Entry).length =
      ([mkGroup "Acme"] : List Entry).length :=
  claimC3_amended [mkGroup "Acme"] 0 (Cell.str "T2") (Cell.str "BB") (Cell.num 2)
    Cell.empty Cell.empty Cell.empty Cell.empty Cell.empty Cell.empty []
    (by decide) (by decide) (by decide)

/-- C4, counterexample: a row with a non-empty LGD column ("AA") but no
nonzero numeric value in columns 3-5 yields NO entry at all — the tree's
entries list stays empty — so the claim that such a row always yields
exactly one DetailEntry regardless of the metric columns is false. -/
theorem claimC4_counterexample :
    process_excel_to_json
        [[Cell.str "Cat", Cell.empty, Cell.empty, Cell.empty, Cell.empty,
          Cell.empty, Cell.empty, Cell.empty, Cell.empty],
         [Cell.str "T", Cell.str "AA", Cell.empty, Cell.empty, Cell.empty,
          Cell.empty, Cell.empty, Cell.empty, Cell.empty]] =
      .ok ⟨"Cat", []⟩ ∧
    cellText (Cell.str "AA") ≠ "" :=
  ⟨rfl, by decide⟩

/-- C4, amended: a row whose LGD column is non-empty (and that is not a
REVOLVER subcategory row) yields exactly one detail record with `term`
from column 1 and `lgd` from column 2 — provided at least one of columns
3-5 converts to a nonzero number; the record is appended to the open
subcategory block's entries, else merged into the current parent, else
appended at top level. -/
theorem claimC4_amended (st : BuildState)
    (c0 c1 c2 c3 c4 c5 c6 c7 c8 : Cell) (rest : List Cell) (mt : Metrics)
    (h1 : cellText c1 ≠ "")
    (hR : hasSub (strUpper (cellText c0)) "REVOLVER" = false)
    (hT : (truthy (safe_numeric_convert c2) || truthy (safe_numeric_convert c3) ||
           truthy (safe_numeric_convert c4)) = true)
    (hM : mt = ⟨safe_numeric_convert c2, safe_numeric_convert c3,
      safe_numeric_convert c4, safe_numeric_convert c5, safe_numeric_convert c6,
      safe_numeric_convert c7, safe_numeric_convert c8⟩) :
    processRow st (c0 :: c1 :: c2 :: c3 :: c4 :: c5 :: c6 :: c7 :: c8 :: rest) =
      .ok (applyDetail st (cellText c0) (cellText c1) mt) ∧
    (applyDetail st (cellText c0) (cellText c1) mt).entries =
      (match st.curSub, st.curParent with
       | some j, _ =>
           updAt st.entries j
             (fun e => ⟨e.name, e.subCategory, e.term, e.lgd, e.metrics,
               some ((e.subEntries.getD []) ++ [⟨cellText c0, cellText c1, mt⟩])⟩)
       | none, some i =>
           updAt st.entries i
             (fun e => ⟨e.name, e.subCategory, some (cellText c0),
               some (cellText c1), some mt, e.subEntries⟩)
       | none, none => st.entries ++ [mkFlat (cellText c0) (cellText c1) mt]) := by
  subst hM
  have hn1 : notna c1 = true := notna_of_cellText_ne h1
  have hna : ((c0 :: c1 :: c2 :: c3 :: c4 :: c5 :: c6 :: c7 :: c8 :: rest).all
      fun c => !notna c) = false := by simp [List.all_cons, hn1]
  have hA : ¬(cellText c0 ≠ "" ∧ cellText c1 = "") := fun hA' => h1 hA'.2
  refine ⟨processRow_detail st c0 c1 c2 c3 c4 c5 c6 c7 c8 rest hna hA hR hT, ?_⟩
  rcases hsub : st.curSub with _ | j
  · rcases hpar : st.curParent with _ | i
    · simp only [applyDetail, hsub, hpar]
    · simp only [applyDetail, hsub, hpar]
  · simp only [applyDetail, hsub]

/-- C4, witness: the amended theorem evaluated on a concrete detail row
with no parent open (top-level append case). -/
theorem claimC4_witness :
    processRow ⟨[], none, none⟩
        [Cell.str "T", Cell.str "AA", Cell.num 5, Cell.empty, Cell.empty,
         Cell.empty, Cell.empty, Cell.empty, Cell.empty] =
      .ok (applyDetail ⟨[], none, none⟩ "T" "AA"
        ⟨some 5, none, none, none, none, none, none⟩) ∧
    (applyDetail (⟨[], none, none⟩ : BuildState) "T" "AA"
        ⟨some 5, none, none, none, none, none, none⟩).entries =
      [mkFlat "T" "AA" ⟨some 5, none, none, none, none, none, none⟩] :=
  claimC4_amended ⟨[], none, none⟩ (Cell.str "T") (Cell.str "AA") (Cell.num 5)
    Cell.empty Cell.empty Cell.empty Cell.empty Cell.empty Cell.empty []
    ⟨some 5, none, none, none, none, none, none⟩
    (by decide) (by decide) (by decide) rfl

/-- C5, counterexample: a row whose first column is "Sub Total" (with an
empty LGD column) is NOT discarded — it becomes a group node in the tree —
so the claim that subtotal rows are classified Noise and produce no node
is false. -/
theorem claimC5_counterexample :
    process_excel_to_json
        [[Cell.str "Cat", Cell.empty], [Cell.str "Sub Total", Cell.empty]] =
      .ok ⟨"Cat", [mkGroup "Sub Total"]⟩ ∧
    subtotalMarker "Sub Total" = true :=
  ⟨rfl, by decide⟩

/-- C5, amended: the code has no subtotal vocabulary; a row whose
first-column text matches the subtotal marker and whose LGD column is
empty is treated like any other group-start row and is appended to the
tree as a new parent group (a node IS produced). -/
theorem claimC5_amended (st : BuildState) (c0 c1 : Cell) (rest : List Cell)
    (h0 : subtotalMarker (cellText c0) = true) (h1 : cellText c1 = "") :
    processRow st (c0 :: c1 :: rest) =
      .ok ⟨st.entries ++ [mkGroup (cellText c0)], some st.entries.length, none⟩ := by
  have hne : cellText c0 ≠ "" := fun he => by
    rw [he] at h0
    exact absurd h0 (by decide)
  exact processRow_groupStart st c0 c1 rest hne h1

/-- C5, witness: the amended theorem evaluated on a concrete subtotal
row following an existing group. -/
theorem claimC5_witness :
    processRow ⟨[mkGroup "Acme"], some 0, none⟩
        [Cell.str "Sub Total", Cell.empty] =
      .ok ⟨[mkGroup "Acme", mkGroup "Sub Total"], some 1, none⟩ :=
  claimC5_amended ⟨[mkGroup "Acme"], some 0, none⟩ (Cell.str "Sub Total")
    Cell.empty [] (by decide) (by decide)

/-- C6, counterexample: a REVOLVER row after group "Acme" produces TWO
top-level entries — the group and a separate sibling subcategory block —
and the group entry itself holds no subgroup (`subEntries = none`), so
the claim that the new Subgroup is appended inside the current Group is
false. -/
theorem claimC6_counterexample :
    process_excel_to_json
        [[Cell.str "Cat", Cell.empty], [Cell.str "Acme", Cell.empty],
         [Cell.str "REVOLVER", Cell.str "x"]] =
      .ok ⟨"Cat", [mkGroup "Acme", mkSubBlock "Acme" "REVOLVER"]⟩ ∧
    (mkGroup "Acme").subEntries = none ∧
    (mkGroup "Acme").subCategory = none :=
  ⟨rfl, rfl, rfl⟩

/-- C6, amended: a subcategory row (first column containing "REVOLVER"
after upcasing, LGD column non-empty) appends a new subcategory block at
the TOP LEVEL of the entries list, as a sibling of the current group
rather than inside it; the block copies the current parent's name (empty
string if none — no anonymous group is created), the parent cursor is
unchanged, and the subcategory cursor moves to the new block so that
subsequent detail rows attach to its entries. -/
theorem claimC6_amended (st : BuildState) (c0 c1 : Cell) (rest : List Cell)
    (h1 : cellText c1 ≠ "")
    (hR : hasSub (strUpper (cellText c0)) "REVOLVER" = true) :
    processRow st (c0 :: c1 :: rest) =
      .ok ⟨st.entries ++ [mkSubBlock (parentName st) (cellText c0)],
        st.curParent, some st.entries.length⟩ :=
  processRow_subCat st c0 c1 rest (fun hA' => h1 hA'.2) hR

/-- C6, witness: the amended theorem evaluated on a concrete REVOLVER row
with group "Acme" current. -/
theorem claimC6_witness :
    processRow ⟨[mkGroup "Acme"], some 0, none⟩
        [Cell.str "REVOLVER", Cell.str "x"] =
      .ok ⟨[mkGroup "Acme", mkSubBlock "Acme" "REVOLVER"], some 0, some 1⟩ :=
  claimC6_amended ⟨[mkGroup "Acme"], some 0, none⟩ (Cell.str "REVOLVER")
    (Cell.str "x") [] (by decide) (by decide)

/-- C7, counterexample: a 3-column grid (fewer than 9 columns) crashes
with an uncaught IndexError when a detail-candidate row reaches metric
extraction — missing trailing columns are NOT treated as Empty — so the
claim that short rows never cause a crash is false. -/
theorem claimC7_counterexample :
    process_excel_to_json
        [[Cell.str "Cat", Cell.empty, Cell.empty],
         [Cell.str "T", Cell.str "AA", Cell.num 1]] =
      .error .indexError ∧
    ([Cell.str "T", Cell.str "AA", Cell.num 1] : List Cell).length = 3 :=
  ⟨rfl, rfl⟩

/-- C7, amended: processing completes without raising on every non-empty
grid all of whose rows have at least 9 columns (NaN-padded cells in such
rows act as Empty); rows shorter than 9 columns can instead crash with an
IndexError once an access past their width is reached. -/
theorem claimC7_amended (df : List (List Cell)) (hne : df ≠ [])
    (hw : ∀ r ∈ df, 9 ≤ r.length) :
    ∃ t, process_excel_to_json df = .ok t := by
  cases df with
  | nil => exact absurd rfl hne
  | cons r0 rest =>
      have h9 : 9 ≤ r0.length := hw r0 (by simp)
      obtain ⟨c00, h00⟩ : ∃ c, r0.get? 0 = some c := by
        cases h0 : r0.get? 0 with
        | none => exact absurd (List.get?_eq_none.mp h0) (by omega)
        | some c => exact ⟨c, rfl⟩
      obtain ⟨fin, hfin⟩ := processRows_total rest ⟨[], none, none⟩
        (fun r hr => hw r (by simp [hr]))
      exact ⟨⟨strTrim (cellStrRaw c00), fin.entries⟩, by
        rw [process_excel_cons, h00, hfin]⟩

/-- C7, witness: the amended theorem evaluated on a concrete 2-row,
9-column grid. -/
theorem claimC7_witness :
    ∃ t, process_excel_to_json
        [[Cell.str "Cat", Cell.empty, Cell.empty, Cell.empty, Cell.empty,
          Cell.empty, Cell.empty, Cell.empty, Cell.empty],
         [Cell.str "Obligor", Cell.empty, Cell.empty, Cell.empty, Cell.empty,
          Cell.empty, Cell.empty, Cell.empty, Cell.empty]] = .ok t :=
  claimC7_amended
    [[Cell.str "Cat", Cell.empty, Cell.empty, Cell.empty, Cell.empty,
      Cell.empty, Cell.empty, Cell.empty, Cell.empty],
     [Cell.str "Obligor", Cell.empty, Cell.empty, Cell.empty, Cell.empty,
      Cell.empty, Cell.empty, Cell.empty, Cell.empty]]
    (by decide) (by decide)

/-- C8: a group-start row (non-empty first column, empty LGD column)
immediately followed by another group-start row produces two adjacent
groups in the final tree, in input order: some index `k` holds exactly
the first group — name from the first row, no term/lgd/metrics, no
subcategory and no sub-entries, i.e. empty entries and subgroups — and
index `k + 1` holds an entry named after the second row; both survive
whatever rows follow, so the empty first group is preserved rather than
dropped. -/
theorem claimC8_adjacent_groups_preserved
    (r0 rA rB : List Cell) (pre post : List (List Cell))
    (cA0 cA1 cB0 cB1 : Cell) (restA restB : List Cell)
    (hA : rA = cA0 :: cA1 :: restA) (hB : rB = cB0 :: cB1 :: restB)
    (hA0 : cellText cA0 ≠ "") (hA1 : cellText cA1 = "")
    (hB0 : cellText cB0 ≠ "") (hB1 : cellText cB1 = "")
    (t : JsonData)
    (h : process_excel_to_json (r0 :: (pre ++ rA :: rB :: post)) = .ok t) :
    ∃ k, t.entries.get? k = some (mkGroup (cellText cA0)) ∧
      ∃ e, t.entries.get? (k + 1) = some e ∧ e.name = cellText cB0 := by
  subst hA hB
  rw [process_excel_cons] at h
  cases h00 : r0.get? 0 with
  | none => rw [h00] at h; cases h
  | some c00 =>
      rw [h00] at h
      cases hrun : processRows ⟨[], none, none⟩
          (pre ++ (cA0 :: cA1 :: restA) :: (cB0 :: cB1 :: restB) :: post) with
      | error e => rw [hrun] at h; cases h
      | ok fin =>
          rw [hrun] at h
          cases h
          obtain ⟨mid, hpre, hrest⟩ := processRows_append_ok pre _ _ fin hrun
          have hstepA := processRow_groupStart mid cA0 cA1 restA hA0 hA1
          simp only [processRows, hstepA] at hrest
          have hstepB := processRow_groupStart
            (⟨mid.entries ++ [mkGroup (cellText cA0)], some mid.entries.length,
              none⟩ : BuildState) cB0 cB1 restB hB0 hB1
          simp only [hstepB] at hrest
          have hkept : KeptAt mid.entries.length (mkGroup (cellText cA0))
              (cellText cB0)
              ⟨(mid.entries ++ [mkGroup (cellText cA0)]) ++ [mkGroup (cellText cB0)],
                some (mid.entries ++ [mkGroup (cellText cA0)]).length, none⟩ := by
            refine ⟨?_, ⟨mkGroup (cellText cB0), ?_, rfl⟩, ?_, ?_⟩
            · rw [List.get?_append (by simp), List.get?_concat_length]
            · rw [show mid.entries.length + 1 =
                  (mid.entries ++ [mkGroup (cellText cA0)]).length from by simp,
                List.get?_concat_length]
            · intro i hi
              injection hi with hh
              simp at hh
              omega
            · exact fun j hj => Option.noConfusion hj
          have hfin := keptAt_processRows post _ fin hrest hkept
          exact ⟨mid.entries.length, hfin.1, hfin.2.1⟩

/-- C8, witness: the theorem evaluated on a concrete grid with two
adjacent group rows and nothing else. -/
theorem claimC8_witness :
    ∃ k, (⟨"07", [mkGroup "Beta Corp", mkGroup "Gamma Corp"]⟩ :
        JsonData).entries.get? k = some (mkGroup "Beta Corp") ∧
      ∃ e, (⟨"07", [mkGroup "Beta Corp", mkGroup "Gamma Corp"]⟩ :
          JsonData).entries.get? (k + 1) = some e ∧ e.name = "Gamma Corp" :=
  claimC8_adjacent_groups_preserved [Cell.str "07", Cell.empty]
    [Cell.str "Beta Corp", Cell.empty] [Cell.str "Gamma Corp", Cell.empty]
    [] [] (Cell.str "Beta Corp") Cell.empty (Cell.str "Gamma Corp") Cell.empty
    [] [] rfl rfl (by decide) (by decide) (by decide) (by decide)
    ⟨"07", [mkGroup "Beta Corp", mkGroup "Gamma Corp"]⟩ rfl

/-- C9: a row all of whose cells are NaN/empty is skipped: it contributes
no node and leaves the whole processing state — entries list, current
parent, current subcategory — unchanged. -/
theorem claimC9_empty_row_noise (st : BuildState) (row : List Cell)
    (h : (row.all fun c => !notna c) = true) :
    processRow st row = .ok st := by
  simp only [processRow, h, if_true]

/-- C9, witness: the theorem evaluated on a concrete all-empty row and a
nontrivial state. -/
theorem claimC9_witness :
    processRow ⟨[mkGroup "Acme"], some 0, none⟩
        [Cell.empty, Cell.empty, Cell.empty] =
      .ok ⟨[mkGroup "Acme"], some 0, none⟩ :=
  claimC9_empty_row_noise ⟨[mkGroup "Acme"], some 0, none⟩
    [Cell.empty, Cell.empty, Cell.empty] (by decide)

/-- C10: a row (past the category row) that is not a group-start row and
not a REVOLVER subcategory row, and whose columns 3-5 each either fail
numeric conversion or convert to 0, is skipped entirely: the state is
returned unchanged, discarding whatever columns 6-9 and the LGD column
contained. -/
theorem claimC10_zero_metric_row_skipped (st : BuildState)
    (c0 c1 c2 c3 c4 : Cell) (rest : List Cell)
    (hA : ¬(cellText c0 ≠ "" ∧ cellText c1 = ""))
    (hR : hasSub (strUpper (cellText c0)) "REVOLVER" = false)
    (h2 : truthy (safe_numeric_convert c2) = false)
    (h3 : truthy (safe_numeric_convert c3) = false)
    (h4 : truthy (safe_numeric_convert c4) = false) :
    processRow st (c0 :: c1 :: c2 :: c3 :: c4 :: rest) = .ok st := by
  by_cases hna : ((c0 :: c1 :: c2 :: c3 :: c4 :: rest).all fun c => !notna c) = true
  · simp only [processRow, hna, if_true]
  · rw [Bool.not_eq_true] at hna
    exact processRow_skip st c0 c1 c2 c3 c4 rest hna hA hR (by simp [h2, h3, h4])

/-- C10, witness: the theorem evaluated on a concrete row with LGD "AA",
a zero in column 3, an empty column 4, an unparseable column 5, and
numeric data in columns 6-9 that is discarded. -/
theorem claimC10_witness :
    processRow ⟨[], none, none⟩
        [Cell.str "T", Cell.str "AA", Cell.num 0, Cell.empty, Cell.str "abc",
         Cell.num 7, Cell.num 8, Cell.num 9, Cell.num 3] =
      .ok ⟨[], none, none⟩ :=
  claimC10_zero_metric_row_skipped ⟨[], none, none⟩ (Cell.str "T")
    (Cell.str "AA") (Cell.num 0) Cell.empty (Cell.str "abc")
    [Cell.num 7, Cell.num 8, Cell.num 9, Cell.num 3]
    (by decide) (by decide) (by decide) (by decide) (by decide)
